import Mathlib

/-!
Verification development for the claude-lsp-cli diagnostics dispatcher.

The code under `src/` provides: the language-checker registry initialization
together with the Zig backend configuration (`src/src/checkers/index.ts`),
and the status display (`src/src/cli/commands/help.ts`).  Those parts are
embedded directly from the source.  The check engine, output formatter and
hook handler are not part of the provided sources (only their tests and the
spec describe them); they are modelled from the spec, each such definition
carries a doc comment starting with `Modelled from the spec:`.

Strings are handled through their character lists; JS string operations
(`split('\n')`, regex matching with `^.+?:(\d+):(\d+): (error|warning|note): (.+)$`,
`parseInt` on a digits-only group) are embedded as total Lean functions on
`List Char`.  JS numbers on digit strings are modelled as `Nat` (the embedding
ignores the double-precision rounding of extremely long digit runs, which no
claim depends on).
-/

/-- Severity of a diagnostic: the TypeScript union type
`'error' | 'warning' | 'info'` from `DiagnosticResult`. -/
inductive Severity where
  | error
  | warning
  | info
deriving Repr, DecidableEq

/-- One normalized diagnostic, mirroring the `DiagnosticResult` record used by
`zigConfig.parseOutput` (fields `line`, `column`, `severity`, `message`). -/
structure DiagnosticResult where
  line : Nat
  column : Nat
  severity : Severity
  message : String
deriving Repr, DecidableEq

/-- A language backend configuration, mirroring the `LanguageConfig` record
(fields `name`, `tool`, `extensions`, `localPaths`, `buildArgs`, `parseOutput`).
`detectConfig` performs filesystem access (`existsSync`) and is omitted from
the pure embedding; `buildArgs` takes `(file, projectRoot, toolCommand)` (the
optional `context` argument of the source is unused by the Zig backend). -/
structure LanguageConfig where
  name : String
  tool : String
  extensions : List String
  localPaths : List String
  buildArgs : String → String → String → List String
  parseOutput : String → String → String → String → List DiagnosticResult

/-- JS `stderr.split('\n')` on the character list: splits on `'\n'`,
keeping empty parts (so the empty string yields one empty part). -/
def splitLines : List Char → List (List Char)
  | [] => [[]]
  | c :: cs =>
    if c = '\n' then [] :: splitLines cs
    else
      match splitLines cs with
      | [] => [[c]]
      | l :: ls => (c :: l) :: ls

/-- JS regex `.`: any character except a line terminator
(`\n`, `\r`, U+2028, U+2029). -/
def dotChar (c : Char) : Bool :=
  !(c = '\n' || c = '\r' || c = Char.ofNat 0x2028 || c = Char.ofNat 0x2029)

/-- Maximal munch of `\d+` followed by `parseInt`: consumes a nonempty run of
decimal digits and returns its value together with the rest of the line;
fails when the line does not start with a digit. -/
def parseNat (cs : List Char) : Option (Nat × List Char) :=
  match cs.span Char.isDigit with
  | (ds, rest) =>
    if ds.isEmpty then none
    else some (ds.foldl (fun a c => a * 10 + (c.toNat - 48)) 0, rest)

/-- One expected literal character. -/
def expectChar (c : Char) : List Char → Option (List Char)
  | [] => none
  | x :: rest => if x = c then some rest else none

/-- The regex alternation `(error|warning|note)`, tried in the source order
(the three literals start with distinct letters, so the choice is forced). -/
def parseSev (cs : List Char) : Option (String × List Char) :=
  if cs.take 5 = "error".data then some ("error", cs.drop 5)
  else if cs.take 7 = "warning".data then some ("warning", cs.drop 7)
  else if cs.take 4 = "note".data then some ("note", cs.drop 4)
  else none

/-- The four capture groups of the Zig diagnostic pattern. -/
structure ZigGroups where
  lineNo : Nat
  colNo : Nat
  sev : String
  msg : String
deriving Repr, DecidableEq

/-- The part of the Zig regex after the first separating colon:
`(\d+):(\d+): (error|warning|note): (.+)$` with greedy `\d+` groups and the
final `(.+)$` requiring a nonempty remainder of dot-class characters. -/
def zigTail (cs : List Char) : Option ZigGroups := do
  let (n1, cs1) ← parseNat cs
  let cs2 ← expectChar ':' cs1
  let (n2, cs3) ← parseNat cs2
  let cs4 ← expectChar ':' cs3
  let cs5 ← expectChar ' ' cs4
  let (sev, cs6) ← parseSev cs5
  let cs7 ← expectChar ':' cs6
  let cs8 ← expectChar ' ' cs7
  if cs8.isEmpty || !(cs8.all dotChar) then none
  else some ⟨n1, n2, sev, String.mk cs8⟩

/-- Backtracking search for the lazy prefix `^.+?:`: try the earliest colon
(after at least one dot-class character) whose tail parses; on tail failure
the colon is absorbed into the prefix and the scan continues. -/
def zigScan : Bool → List Char → Option ZigGroups
  | _, [] => none
  | seen, c :: rest =>
    if seen && c = ':' then
      match zigTail rest with
      | some g => some g
      | none => if dotChar c then zigScan true rest else none
    else if dotChar c then zigScan true rest else none

/-- Severity normalization from `zigConfig.parseOutput`: start from `'error'`,
override with `'warning'` and map `'note'` to `'info'`. -/
def normSev (s : String) : Severity :=
  if s = "warning" then Severity.warning
  else if s = "note" then Severity.info
  else Severity.error

/-- One line of tool stderr, matched against
`^.+?:(\d+):(\d+): (error|warning|note): (.+)$` and turned into a
`DiagnosticResult` exactly as the loop body of `zigConfig.parseOutput` does. -/
def zigParseLine (cs : List Char) : Option DiagnosticResult :=
  (zigScan false cs).map (fun g => ⟨g.lineNo, g.colNo, normSev g.sev, g.msg⟩)

/-- The Zig backend configuration from `src/src/checkers/zig.ts` as re-exported
by `src/src/checkers/index.ts`. -/
def zigConfig : LanguageConfig where
  name := "Zig"
  tool := "zig"
  extensions := [".zig"]
  localPaths := []
  buildArgs := fun file _projectRoot _toolCommand => ["ast-check", file]
  parseOutput := fun _stdout stderr _file _projectRoot =>
    (splitLines stderr.data).filterMap zigParseLine

/-- Modelled from the spec: the Output Formatter's single-pass error count
(§4.4 "total error count ... computed by a single pass over the diagnostics"). -/
def errorCount (ds : List DiagnosticResult) : Nat :=
  ds.countP (fun d => d.severity == Severity.error)

/-- Modelled from the spec: the Output Formatter's single-pass warning count. -/
def warningCount (ds : List DiagnosticResult) : Nat :=
  ds.countP (fun d => d.severity == Severity.warning)

/-- Modelled from the spec: the exit-code rule of §4.4 — 0 when there are zero
errors and zero warnings, 2 when at least one diagnostic is an error or a
warning; `info` never affects the exit code. -/
def exitCodeOf (ds : List DiagnosticResult) : Nat :=
  if 0 < errorCount ds + warningCount ds then 2 else 0

/-- Modelled from the spec: the plain-mode summary line
"N error(s), M warning(s)" of §4.4. -/
def summaryLine (ds : List DiagnosticResult) : String :=
  toString (errorCount ds) ++ " error(s), " ++ toString (warningCount ds) ++ " warning(s)"

/-- Modelled from the spec: the plain-mode report of §4.4 — the summary line
prefixed by the failure marker when the error/warning count is positive,
otherwise the explicit "No issues found" line (the marker `✗` is the one the
tests look for). -/
def formatPlain (ds : List DiagnosticResult) : String :=
  if 0 < errorCount ds + warningCount ds then "✗ " ++ summaryLine ds
  else "No issues found"

/-- What one formatter invocation writes to each stream, plus its exit code. -/
structure Output where
  stdoutText : String
  stderrText : String
  exitCode : Nat
deriving Repr, DecidableEq

/-- Modelled from the spec: plain mode writes the report to standard output
and derives the exit code from the diagnostics. -/
def plainFormat (ds : List DiagnosticResult) : Output :=
  ⟨formatPlain ds, "", exitCodeOf ds⟩

/-- Modelled from the spec: the editor-integration escape wrapping — the
payload is framed by the OSC 633;E marker (the tests look for `]633;E;`)
and a terminator, so the host editor can recognize it. -/
def escWrap (s : String) : String :=
  "\x1b]633;E;" ++ s ++ "\x07"

/-- Modelled from the spec: hook mode writes the escape-wrapped report to
standard error (never standard output) when there is something to report,
and stays silent on a clean result; the exit code rule is identical to
plain mode. -/
def hookFormat (ds : List DiagnosticResult) : Output :=
  if 0 < errorCount ds + warningCount ds then
    ⟨"", escWrap ("✗ " ++ summaryLine ds), 2⟩
  else ⟨"", "", 0⟩

/-- A hook event payload as parsed from standard input: `tool_name`,
`tool_input.file_path` and `cwd` (§3 HookEvent). -/
structure HookEvent where
  tool_name : String
  file_path : String
  cwd : String
deriving Repr, DecidableEq

/-- Modelled from the spec: the tool names that denote file-creating/editing
editor actions and hence trigger a check (§4.5 step 3; the tests drive the
hook with `Edit`). -/
def editToolNames : List String :=
  ["Write", "Edit", "MultiEdit", "NotebookEdit"]

/-- Whether a hook `tool_name` is a file-creating/editing action. -/
def isEditTool (t : String) : Bool :=
  editToolNames.contains t

/-- Observable outcome of one hook invocation: exit code, what was written to
standard error, and the files on which the Check Engine was invoked. -/
structure HookOutcome where
  exitCode : Nat
  stderrText : String
  checkedFiles : List String
deriving Repr, DecidableEq

/-- Modelled from the spec: the Hook Handler of §4.5 — a missing or malformed
payload (`none`) is a silent no-op with exit 0; a payload whose `tool_name`
is not an edit action is silently ignored; otherwise the Check Engine
(abstracted as the `engine` argument, from file path and cwd to diagnostics)
runs on the touched file and the result is rendered in hook mode. -/
def handleHook (payload : Option HookEvent)
    (engine : String → String → List DiagnosticResult) : HookOutcome :=
  match payload with
  | none => ⟨0, "", []⟩
  | some ev =>
    if isEditTool ev.tool_name then
      let ds := engine ev.file_path ev.cwd
      ⟨exitCodeOf ds, (hookFormat ds).stderrText, [ev.file_path]⟩
    else ⟨0, "", []⟩

/-- The persisted configuration flags read at check time: the global `disable`
flag and the per-language `disable<Language>` flags, as read by `showStatus`
in `src/src/cli/commands/help.ts` (the per-language flags are keyed by
display name, e.g. `disableZig` → "Zig"). -/
structure Config where
  disable : Bool
  disabledLanguages : List String
deriving Repr, DecidableEq

/-- Whether checking is suppressed for a language: globally disabled or
disabled for this particular language (the disjunction used by `showStatus`
and, per §4.3 step 2, by the Check Engine). -/
def languageDisabled (cfg : Config) (langName : String) : Bool :=
  cfg.disable || cfg.disabledLanguages.contains langName

/-- The engine-internal check result of §3: file, language, diagnostics and
tool availability. -/
structure CheckResult where
  file : String
  language : String
  diagnostics : List DiagnosticResult
  toolAvailable : Bool
deriving Repr, DecidableEq

/-- Modelled from the spec: the Check Engine of §4.3 for an already-resolved
language, with the Process Runner abstracted as the `runner` argument (argv
to captured stdout, stderr and exit code) and tool-path resolution folded
into `toolCmd`.  Step 2: when checking is disabled globally or for this
language, return an empty result before any process is spawned.  Otherwise
build the argv, run it once, and parse the captured output.  The second
component counts Process Runner invocations. -/
def runCheck (cfg : Config) (lc : LanguageConfig) (file root toolCmd : String)
    (runner : List String → String × String × Int) : CheckResult × Nat :=
  if languageDisabled cfg lc.name then
    (⟨file, lc.name, [], true⟩, 0)
  else
    let args := lc.buildArgs file root toolCmd
    let (out, err, _exit) := runner (toolCmd :: args)
    (⟨file, lc.name, lc.parseOutput out err file root, true⟩, 1)

/-- One entry of the `languages` probe table in `showStatus`
(`src/src/cli/commands/help.ts`). -/
structure LangEntry where
  name : String
  code : String
  command : String
  versionArg : String
  install : String
deriving Repr, DecidableEq

/-- The twelve-entry `languages` table of `showStatus`, in source order. -/
def statusLanguages : List LangEntry :=
  [⟨"TypeScript", "typescript", "tsc", "--version", "npm install -g typescript"⟩,
   ⟨"Python", "python", "pyright", "--version", "npm install -g pyright"⟩,
   ⟨"Go", "go", "go", "version", "Install Go from https://golang.org"⟩,
   ⟨"Rust", "rust", "rustc", "--version", "Install Rust from https://rustup.rs"⟩,
   ⟨"Java", "java", "javac", "-version", "Install Java JDK"⟩,
   ⟨"C/C++", "cpp", "gcc", "--version", "Install GCC or Clang"⟩,
   ⟨"PHP", "php", "php", "--version", "Install PHP"⟩,
   ⟨"Scala", "scala", "scalac", "-version", "Install Scala"⟩,
   ⟨"Lua", "lua", "luac", "-v", "Install Lua"⟩,
   ⟨"Elixir", "elixir", "elixir", "--version", "Install Elixir"⟩,
   ⟨"Terraform", "terraform", "terraform", "version", "Install Terraform"⟩,
   ⟨"Zig", "zig", "zig", "version", "Install Zig from https://ziglang.org"⟩]

/-- The availability record `showStatus` builds for one language (fields
`name`, `code`, `available`, `install`); `available` abstracts
`execCommand([command, versionArg]).exitCode === 0` as a predicate on the
command name. -/
structure ProbeResult where
  name : String
  code : String
  available : Bool
  install : String
deriving Repr, DecidableEq

/-- The probe body of `showStatus`: one language entry to its availability
record, with tool availability abstracted by `avail`. -/
def probe (avail : String → Bool) (l : LangEntry) : ProbeResult :=
  ⟨l.name, l.code, avail l.command, l.install⟩

/-- `Promise.all` recombination: given the completion events of the concurrent
probes as (index, result) pairs in completion order, rebuild the result list
in index order (position `i` gets the result that carries index `i`). -/
def recombine (n : Nat) (completions : List (Nat × ProbeResult)) :
    List (Option ProbeResult) :=
  (List.range n).map (fun i =>
    (completions.find? (fun p => p.1 == i)).map (fun p => p.2))

/-- One status display line of `showStatus`: disabled beats available beats
not-found, exactly as in the display loop of `help.ts`. -/
def displayLine (isDisabled : String → Bool) (r : ProbeResult) : String :=
  if isDisabled r.name then
    "  🚫 " ++ r.name ++ " (" ++ r.code ++ "): DISABLED via config"
  else if r.available then
    "  ✅ " ++ r.name ++ " (" ++ r.code ++ "): Available"
  else
    "  ❌ " ++ r.name ++ " (" ++ r.code ++ "): Not found - " ++ r.install

/-- Helper: the severity capture group can only be one of the three literals
of the regex alternation. -/
theorem parseSev_cases {cs : List Char} {s : String} {r : List Char}
    (h : parseSev cs = some (s, r)) :
    s = "error" ∨ s = "warning" ∨ s = "note" := by
  unfold parseSev at h
  repeat' split at h
  all_goals simp_all

/-- Helper: the groups returned by `zigTail` carry one of the three severity
literals. -/
theorem zigTail_sev {cs : List Char} {g : ZigGroups} (h : zigTail cs = some g) :
    g.sev = "error" ∨ g.sev = "warning" ∨ g.sev = "note" := by
  unfold zigTail at h
  simp only [bind, Option.bind_eq_some] at h
  obtain ⟨⟨n1, cs1⟩, h1, h⟩ := h
  obtain ⟨cs2, h2, h⟩ := h
  obtain ⟨⟨n2, cs3⟩, h3, h⟩ := h
  obtain ⟨cs4, h4, h⟩ := h
  obtain ⟨cs5, h5, h⟩ := h
  obtain ⟨⟨sev, cs6⟩, h6, h⟩ := h
  obtain ⟨cs7, h7, h⟩ := h
  obtain ⟨cs8, h8, h⟩ := h
  split at h
  · exact absurd h (by simp)
  · cases h
    exact parseSev_cases h6

/-- Helper: the groups returned by `zigScan` carry one of the three severity
literals. -/
theorem zigScan_sev (cs : List Char) :
    ∀ (seen : Bool) (g : ZigGroups), zigScan seen cs = some g →
      g.sev = "error" ∨ g.sev = "warning" ∨ g.sev = "note" := by
  induction cs with
  | nil => intro seen g h; simp [zigScan] at h
  | cons c rest ih =>
    intro seen g h
    unfold zigScan at h
    split at h
    · split at h
      · rename_i g' htail
        cases h
        exact zigTail_sev htail
      · split at h
        · exact ih true g h
        · cases h
    · split at h
      · exact ih true g h
      · cases h

/-- Helper: a positive error-or-warning count follows from one error or
warning diagnostic being present. -/
theorem errWarn_pos_of_mem {ds : List DiagnosticResult}
    (h : ∃ d ∈ ds, d.severity = Severity.error ∨ d.severity = Severity.warning) :
    0 < errorCount ds + warningCount ds := by
  obtain ⟨d, hd, hsev⟩ := h
  rcases hsev with h1 | h1
  · have : 0 < errorCount ds := List.countP_pos_iff.mpr ⟨d, hd, by rw [h1]; rfl⟩
    omega
  · have : 0 < warningCount ds := List.countP_pos_iff.mpr ⟨d, hd, by rw [h1]; rfl⟩
    omega

example :
    zigConfig.parseOutput "" "a.zig:3:4: error: boom" "f" "r" =
      [⟨3, 4, Severity.error, "boom"⟩] := by decide

example :
    zigConfig.parseOutput "" "x\na.zig:1:2: note: hi\ny" "f" "r" =
      [⟨1, 2, Severity.info, "hi"⟩] := by decide

example : zigConfig.parseOutput "junk" "" "f" "r" = [] := by decide

example :
    zigConfig.parseOutput "" "a:12:34:56: error: msg" "f" "r" =
      [⟨34, 56, Severity.error, "msg"⟩] := by decide

example : zigConfig.parseOutput "" "a.zig:1:1: fatal: boom" "f" "r" = [] := by
  decide

example :
    zigConfig.parseOutput "" "a.zig:0:0: error: boom" "f" "r" =
      [⟨0, 0, Severity.error, "boom"⟩] := by decide

/-- C1: for every diagnostic sequence the formatter derives exit code 0 when
the sequence is empty or contains only `info` diagnostics, exit code 2 when at
least one diagnostic is an `error` or `warning`, and plain mode and hook mode
derive the same exit code. -/
theorem exit_code_policy (ds : List DiagnosticResult) :
    ((∀ d ∈ ds, d.severity = Severity.info) → exitCodeOf ds = 0) ∧
    ((∃ d ∈ ds, d.severity = Severity.error ∨ d.severity = Severity.warning) →
      exitCodeOf ds = 2) ∧
    (plainFormat ds).exitCode = exitCodeOf ds ∧
    (hookFormat ds).exitCode = exitCodeOf ds := by
  refine ⟨?_, ?_, rfl, ?_⟩
  · intro h
    have he : errorCount ds = 0 := by
      apply List.countP_eq_zero.mpr
      intro d hd
      simp [h d hd]
    have hw : warningCount ds = 0 := by
      apply List.countP_eq_zero.mpr
      intro d hd
      simp [h d hd]
    simp [exitCodeOf, he, hw]
  · intro h
    have := errWarn_pos_of_mem h
    simp [exitCodeOf, this]
  · unfold hookFormat exitCodeOf
    split <;> rfl

/-- Witness for C1 at concrete inputs: an info-only list exits 0, a list with
one warning exits 2. -/
theorem exit_code_policy_witness :
    exitCodeOf [⟨1, 1, Severity.info, "m"⟩] = 0 ∧
    exitCodeOf [⟨1, 1, Severity.warning, "w"⟩] = 2 :=
  ⟨(exit_code_policy _).1 (by decide),
   (exit_code_policy _).2.1 ⟨⟨1, 1, Severity.warning, "w"⟩, by decide, Or.inr rfl⟩⟩

/-- C2: `zigConfig.parseOutput` is a total function of the tool output — for
every pair of input strings it returns a list of diagnostics with at most one
diagnostic per stderr line, and whenever no stderr line matches the pattern
(in particular for empty or malformed output) the list is empty. -/
theorem zig_parse_output_total (stdout stderr file root : String) :
    (zigConfig.parseOutput stdout stderr file root).length ≤
      (splitLines stderr.data).length ∧
    ((∀ l ∈ splitLines stderr.data, zigParseLine l = none) →
      zigConfig.parseOutput stdout stderr file root = []) := by
  constructor
  · exact List.length_filterMap_le zigParseLine (splitLines stderr.data)
  · intro h
    exact List.filterMap_eq_nil_iff.mpr h

/-- Witness for C2 at a concrete input: malformed stderr yields the empty
list. -/
theorem zig_parse_output_total_witness :
    zigConfig.parseOutput "junk" "this is not a diagnostic" "f" "r" = [] :=
  (zig_parse_output_total "junk" "this is not a diagnostic" "f" "r").2 (by decide)

/-- C3 counterexample: a line whose severity word is unrecognized (`fatal`)
does not match the pattern and is silently dropped — no diagnostic with
severity `error` is produced — while the same line with a recognized severity
does produce a diagnostic. -/
theorem zig_unrecognized_severity_dropped :
    zigConfig.parseOutput "" "a.zig:1:1: fatal: boom" "f" "r" = [] ∧
    zigConfig.parseOutput "" "a.zig:1:1: error: boom" "f" "r" =
      [⟨1, 1, Severity.error, "boom"⟩] := by
  exact ⟨by decide, by decide⟩

/-- C3 amended: every diagnostic produced by the Zig parser has its severity
normalized from the matched severity word, which is always one of `error`,
`warning`, `note`, mapped to `error`, `warning`, `info` respectively;
unrecognized severity words never match, so no diagnostic is produced for
them. -/
theorem zig_severity_normalized (stdout stderr file root : String)
    (d : DiagnosticResult) (hd : d ∈ zigConfig.parseOutput stdout stderr file root) :
    ∃ l ∈ splitLines stderr.data, ∃ g : ZigGroups, zigScan false l = some g ∧
      ((g.sev = "error" ∧ d.severity = Severity.error) ∨
       (g.sev = "warning" ∧ d.severity = Severity.warning) ∨
       (g.sev = "note" ∧ d.severity = Severity.info)) := by
  obtain ⟨l, hl, hparse⟩ := List.mem_filterMap.mp hd
  obtain ⟨g, hg, hmk⟩ := Option.map_eq_some'.mp hparse
  refine ⟨l, hl, g, hg, ?_⟩
  rcases zigScan_sev l false g hg with hs | hs | hs
  · exact Or.inl ⟨hs, by rw [← hmk]; simp [normSev, hs]⟩
  · exact Or.inr (Or.inl ⟨hs, by rw [← hmk]; simp [normSev, hs]⟩)
  · exact Or.inr (Or.inr ⟨hs, by rw [← hmk]; simp [normSev, hs]⟩)

/-- Witness for C3 at a concrete input: the diagnostic parsed from a `note`
line carries severity `info`. -/
theorem zig_severity_normalized_witness :
    ∃ l ∈ splitLines ("a.zig:1:2: note: hi" : String).data,
      ∃ g : ZigGroups, zigScan false l = some g ∧
        ((g.sev = "error" ∧ Severity.info = Severity.error) ∨
         (g.sev = "warning" ∧ Severity.info = Severity.warning) ∨
         (g.sev = "note" ∧ Severity.info = Severity.info)) := by
  have h := zig_severity_normalized "" "a.zig:1:2: note: hi" "f" "r"
    ⟨1, 2, Severity.info, "hi"⟩ (by decide)
  exact h

/-- C4 counterexample: the parser takes positions verbatim from the tool
output, so a stderr line reporting position 0:0 produces a diagnostic with
`line = 0` and `column = 0`, violating `line ≥ 1 ∧ column ≥ 1`. -/
theorem zig_zero_position_counterexample :
    ¬ (∀ d ∈ zigConfig.parseOutput "" "a.zig:0:0: error: boom" "f" "r",
        1 ≤ d.line ∧ 1 ≤ d.column) := by
  decide

/-- C4 amended: positions are passed through verbatim (no 0-index adjustment),
so whenever every matched line of the tool output reports positive line and
column numbers — as 1-indexed tools such as zig do — every produced diagnostic
satisfies `line ≥ 1` and `column ≥ 1`. -/
theorem zig_positions_verbatim (stdout stderr file root : String)
    (h : ∀ l ∈ splitLines stderr.data, ∀ g : ZigGroups,
      zigScan false l = some g → 1 ≤ g.lineNo ∧ 1 ≤ g.colNo) :
    ∀ d ∈ zigConfig.parseOutput stdout stderr file root,
      1 ≤ d.line ∧ 1 ≤ d.column := by
  intro d hd
  obtain ⟨l, hl, hparse⟩ := List.mem_filterMap.mp hd
  obtain ⟨g, hg, hmk⟩ := Option.map_eq_some'.mp hparse
  have := h l hl g hg
  rw [← hmk]
  exact this

/-- Witness for C4 at a concrete input: a 1-indexed stderr line yields a
diagnostic with positive positions. -/
theorem zig_positions_verbatim_witness :
    1 ≤ (⟨3, 4, Severity.error, "boom"⟩ : DiagnosticResult).line ∧
    1 ≤ (⟨3, 4, Severity.error, "boom"⟩ : DiagnosticResult).column := by
  refine zig_positions_verbatim "" "a.zig:3:4: error: boom" "f" "r" ?_ _ (by decide)
  have hall : ∀ l ∈ splitLines ("a.zig:3:4: error: boom" : String).data,
      ((zigScan false l).all fun g =>
        decide (1 ≤ g.lineNo) && decide (1 ≤ g.colNo)) = true := by
    decide
  intro l hl g hg
  have h2 := hall l hl
  rw [hg] at h2
  have h3 : (decide (1 ≤ g.lineNo) && decide (1 ≤ g.colNo)) = true := h2
  simp at h3
  exact h3

/-- C5: a hook invocation with a missing or malformed standard-input payload,
or whose `tool_name` is not a file-creating/editing action, exits with code 0,
writes nothing, and never invokes the Check Engine. -/
theorem hook_ignores_non_edit (payload : Option HookEvent)
    (engine : String → String → List DiagnosticResult)
    (h : payload = none ∨
      ∃ ev, payload = some ev ∧ isEditTool ev.tool_name = false) :
    handleHook payload engine = ⟨0, "", []⟩ := by
  rcases h with h | ⟨ev, hev, hname⟩
  · subst h
    rfl
  · subst hev
    simp [handleHook, hname]

/-- Witness for C5 at a concrete input: a read-only tool event is a silent
no-op even when the engine would report an error. -/
theorem hook_ignores_non_edit_witness :
    handleHook (some ⟨"Read", "/tmp/x.zig", "/tmp"⟩)
      (fun _ _ => [⟨1, 1, Severity.error, "boom"⟩]) = ⟨0, "", []⟩ :=
  hook_ignores_non_edit _ _ (Or.inr ⟨⟨"Read", "/tmp/x.zig", "/tmp"⟩, rfl, by decide⟩)

/-- C6: when the resolved language is disabled (globally or per-language) the
check returns an empty clean result with exit code 0 and the Process Runner is
never invoked (zero spawned processes). -/
theorem disabled_language_short_circuits (cfg : Config) (lc : LanguageConfig)
    (file root toolCmd : String) (runner : List String → String × String × Int)
    (h : languageDisabled cfg lc.name = true) :
    (runCheck cfg lc file root toolCmd runner).1.diagnostics = [] ∧
    (runCheck cfg lc file root toolCmd runner).2 = 0 ∧
    exitCodeOf (runCheck cfg lc file root toolCmd runner).1.diagnostics = 0 := by
  simp [runCheck, h, exitCodeOf, errorCount, warningCount]

/-- Witness for C6 at concrete inputs: the globally-disabled flag and the
per-language `disableZig` flag each short-circuit the real Zig configuration
with zero runner invocations. -/
theorem disabled_language_short_circuits_witness :
    (runCheck ⟨true, []⟩ zigConfig "a.zig" "/p" "zig"
      (fun _ => ("", "a.zig:1:1: error: boom", 1))).2 = 0 ∧
    (runCheck ⟨false, ["Zig"]⟩ zigConfig "a.zig" "/p" "zig"
      (fun _ => ("", "a.zig:1:1: error: boom", 1))).2 = 0 :=
  ⟨(disabled_language_short_circuits _ _ _ _ _ _ (by decide)).2.1,
   (disabled_language_short_circuits _ _ _ _ _ _ (by decide)).2.1⟩

/-- C7 counterexample: a non-empty diagnostic list containing only an `info`
diagnostic is formatted as the "No issues found" line, not as a
failure-marker summary. -/
theorem plain_format_info_only_counterexample :
    formatPlain [⟨1, 1, Severity.info, "m"⟩] = "No issues found" ∧
    ([⟨1, 1, Severity.info, "m"⟩] : List DiagnosticResult) ≠ [] := by
  constructor
  · decide
  · decide

/-- C7 amended: in plain mode the formatter prints the explicit
"No issues found" line when the diagnostic list contains no error and no
warning (in particular when it is empty), and prints the summary line with the
error and warning counts prefixed by the failure marker when it contains at
least one error or warning. -/
theorem plain_format_report (ds : List DiagnosticResult) :
    (errorCount ds + warningCount ds = 0 → formatPlain ds = "No issues found") ∧
    (0 < errorCount ds + warningCount ds →
      formatPlain ds = "✗ " ++ summaryLine ds) := by
  constructor
  · intro h
    simp [formatPlain, h]
  · intro h
    simp [formatPlain, h]

/-- Witness for C7 at concrete inputs: the empty list prints the no-issues
line; a single error prints the marked summary. -/
theorem plain_format_report_witness :
    formatPlain [] = "No issues found" ∧
    formatPlain [⟨1, 1, Severity.error, "m"⟩] =
      "✗ " ++ summaryLine [⟨1, 1, Severity.error, "m"⟩] :=
  ⟨(plain_format_report []).1 (by decide),
   (plain_format_report _).2 (by decide)⟩

/-- C8: in hook mode nothing is written to standard output, any report is
wrapped in the editor-recognized escape sequence on standard error, and the
exit code is the same as in plain mode. -/
theorem hook_mode_output (ds : List DiagnosticResult) :
    (hookFormat ds).stdoutText = "" ∧
    ((∃ d ∈ ds, d.severity = Severity.error ∨ d.severity = Severity.warning) →
      ∃ body, (hookFormat ds).stderrText = "\x1b]633;E;" ++ body ++ "\x07") ∧
    (hookFormat ds).exitCode = (plainFormat ds).exitCode := by
  refine ⟨?_, ?_, ?_⟩
  · unfold hookFormat
    split <;> rfl
  · intro h
    have hpos := errWarn_pos_of_mem h
    refine ⟨"✗ " ++ summaryLine ds, ?_⟩
    simp [hookFormat, hpos, escWrap]
  · unfold hookFormat plainFormat exitCodeOf
    split <;> rfl

/-- Witness for C8 at a concrete input: one error diagnostic produces an
escape-wrapped stderr payload. -/
theorem hook_mode_output_witness :
    ∃ body, (hookFormat [⟨1, 1, Severity.error, "m"⟩]).stderrText =
      "\x1b]633;E;" ++ body ++ "\x07" :=
  (hook_mode_output _).2.1 ⟨⟨1, 1, Severity.error, "m"⟩, by decide, Or.inl rfl⟩

/-- C9: however the concurrent availability probes complete (any permutation
of the indexed probe results), the `Promise.all` recombination returns the
results in the original order of the `languages` table, so the status display
iterates them in request order. -/
theorem status_probe_order (avail : String → Bool)
    (completions : List (Nat × ProbeResult))
    (hperm : completions.Perm ((statusLanguages.map (probe avail)).enum)) :
    recombine statusLanguages.length completions =
      (statusLanguages.map (probe avail)).map some := by
  set xs := statusLanguages.map (probe avail) with hxs
  have hlen : xs.length = statusLanguages.length := List.length_map _ _
  have hfind : ∀ (i : Nat) (hi : i < xs.length),
      completions.find? (fun p => p.1 == i) = some (i, xs[i]) := by
    intro i hi
    have hmem_enum : ((i, xs[i]) : Nat × ProbeResult) ∈ xs.enum := by
      apply List.mem_enum_iff_getElem?.mpr
      exact List.getElem?_eq_getElem hi
    have hmem : ((i, xs[i]) : Nat × ProbeResult) ∈ completions :=
      hperm.mem_iff.mpr hmem_enum
    have hsome : (completions.find? (fun p => p.1 == i)).isSome :=
      List.find?_isSome.mpr ⟨_, hmem, by simp⟩
    obtain ⟨q, hq⟩ := Option.isSome_iff_exists.mp hsome
    have hq1 : q.1 = i := by
      have := List.find?_some hq
      simpa using this
    have hqmem : q ∈ completions := List.mem_of_find?_eq_some hq
    have hqenum : q ∈ xs.enum := hperm.mem_iff.mp hqmem
    have hget : xs[q.1]? = some q.2 := List.mem_enum_iff_getElem?.mp hqenum
    rw [hq1, List.getElem?_eq_getElem hi] at hget
    have hq2 : q.2 = xs[i] := (Option.some_inj.mp hget).symm
    rw [hq]
    rw [show q = (i, xs[i]) from Prod.ext hq1 hq2]
  refine List.ext_getElem ?_ ?_
  · simp [recombine, hlen]
  · intro i h1 h2
    have hi : i < xs.length := by
      simp only [recombine, List.length_map, List.length_range] at h1
      omega
    simp only [recombine, List.getElem_map, List.getElem_range]
    rw [hfind i hi]
    rfl

/-- Witness for C9 at a concrete input: even when the probes complete in
reversed order, the recombined results are in table order. -/
theorem status_probe_order_witness :
    recombine statusLanguages.length
        (((statusLanguages.map (probe (fun _ => true))).enum).reverse) =
      (statusLanguages.map (probe (fun _ => true))).map some :=
  status_probe_order _ _ (List.reverse_perm _)

/-- C10: the Zig parser depends only on its stderr argument (stdout, file and
project root never contribute), its result is exactly the in-order filterMap
of the per-line matcher over the stderr lines, and every produced diagnostic
arises from a line matching the Zig diagnostic pattern. -/
theorem zig_stderr_only (s1 s2 e f1 f2 r1 r2 : String) :
    zigConfig.parseOutput s1 e f1 r1 = zigConfig.parseOutput s2 e f2 r2 ∧
    zigConfig.parseOutput s1 e f1 r1 =
      (splitLines e.data).filterMap zigParseLine ∧
    (∀ (l : List Char) (d : DiagnosticResult), zigParseLine l = some d →
      ∃ g : ZigGroups, zigScan false l = some g ∧
        d = ⟨g.lineNo, g.colNo, normSev g.sev, g.msg⟩) := by
  refine ⟨rfl, rfl, ?_⟩
  intro l d h
  obtain ⟨g, hg, hmk⟩ := Option.map_eq_some'.mp h
  exact ⟨g, hg, hmk.symm⟩

/-- Witness for C10 at a concrete input: the diagnostic parsed from a concrete
`note` line is exactly the one built from its capture groups. -/
theorem zig_stderr_only_witness :
    ∃ g : ZigGroups, zigScan false ("a.zig:3:4: note: m" : String).data = some g ∧
      (⟨3, 4, Severity.info, "m"⟩ : DiagnosticResult) =
        ⟨g.lineNo, g.colNo, normSev g.sev, g.msg⟩ :=
  (zig_stderr_only "A" "B" "a.zig:3:4: note: m" "f" "g" "r" "s").2.2 _ _ (by decide)
